import Mathlib

/-!
# Verification of the Dome9 SDK request-dispatch and validation layer

Shallow embedding of `src/dome9_sdk_python/dome9_api_sdk.py` (the current
client) and `src/dome9/client.py` (the legacy client): the static argument
validators, the client constructor, the request dispatcher `_request`, and
representative per-operation methods.

Modelling conventions:
* Python regular-expression checks (`re.match(pattern, arg)`) are embedded as
  continuation-passing matchers over `List Char`.  `re.match` anchors at the
  start of the string; the trailing `$` anchor of each pattern matches either
  at the end of the string or just before a single final newline, which the
  embedding reproduces with `pyDollar`.  Explicit character ranges are
  embedded by code points; `\d` is embedded as the full Unicode
  decimal-digit category Nd it matches for `str` patterns; `\S` is
  restricted to ASCII whitespace.
* `raise ValueError` (the validators' "invalid format" signal) and the
  `TypeError` produced by matching a regex against `None` are the two
  constructors of `PyErr`.
* Fallible code returns `Except`.  The HTTP transport is a parameter: a
  dispatch consumes a `TransportResult` describing either a connection error
  or the received response (status code, reason phrase, raw body bytes and
  the outcome that `response.json()` would produce on that body).
* Methods of the SDK object thread the object state (`Config`) explicitly:
  an operation returns the state of the object after the call together with
  its result.
-/

/-- Python exceptions raised by the validators: `ValueError` (raised
explicitly on a failed format check; the spec's `InvalidFormat`) and
`TypeError` (raised by `re.match(pattern, None)` or by comparing `None`
with an integer). -/
inductive PyErr where
  | valueError
  | typeError
deriving DecidableEq, Repr

/-- Code-point interval test: embedding of a regex character range. -/
def inRangeA (lo hi : Nat) (c : Char) : Bool :=
  decide (lo ≤ c.toNat ∧ c.toNat ≤ hi)

/-- The explicit ASCII digit range `[0-9]` (code points 48–57). -/
def isDigitA (c : Char) : Bool := inRangeA 48 57 c

/-- The code-point ranges of Unicode general category Nd (decimal digits),
per Unicode 14.0.0, the table CPython 3.11's `re` module matches `\d`
against for `str` patterns. -/
def ndRanges : List (Nat × Nat) :=
  [(48, 57), (1632, 1641), (1776, 1785), (1984, 1993), (2406, 2415),
   (2534, 2543), (2662, 2671), (2790, 2799), (2918, 2927), (3046, 3055),
   (3174, 3183), (3302, 3311), (3430, 3439), (3558, 3567), (3664, 3673),
   (3792, 3801), (3872, 3881), (4160, 4169), (4240, 4249), (6112, 6121),
   (6160, 6169), (6470, 6479), (6608, 6617), (6784, 6793), (6800, 6809),
   (6992, 7001), (7088, 7097), (7232, 7241), (7248, 7257), (42528, 42537),
   (43216, 43225), (43264, 43273), (43472, 43481), (43504, 43513),
   (43600, 43609), (44016, 44025), (65296, 65305), (66720, 66729),
   (68912, 68921), (69734, 69743), (69872, 69881), (69942, 69951),
   (70096, 70105), (70384, 70393), (70736, 70745), (70864, 70873),
   (71248, 71257), (71360, 71369), (71472, 71481), (71904, 71913),
   (72016, 72025), (72784, 72793), (73040, 73049), (73120, 73129),
   (92768, 92777), (92864, 92873), (93008, 93017), (120782, 120831),
   (123200, 123209), (123632, 123641), (125264, 125273), (130032, 130041)]

/-- Regex class `\d` for Python `str` patterns: any Unicode decimal digit
(category Nd), not only ASCII `[0-9]`. -/
def isDigitNd (c : Char) : Bool :=
  ndRanges.any (fun r => decide (r.1 ≤ c.toNat ∧ c.toNat ≤ r.2))

/-- Regex class `[1-9]`. -/
def isNzDigitA (c : Char) : Bool := inRangeA 49 57 c

/-- Regex class `[0-9a-f]` (lowercase hexadecimal digit). -/
def isHexLowerA (c : Char) : Bool := isDigitA c || inRangeA 97 102 c

/-- Regex class `[0-9a-z]` (lowercase alphanumeric). -/
def isLowerAlnumA (c : Char) : Bool := isDigitA c || inRangeA 97 122 c

/-- Regex class `[a-zA-Z]`. -/
def isAlphaA (c : Char) : Bool := inRangeA 65 90 c || inRangeA 97 122 c

/-- Regex class `[a-zA-Z0-9]`. -/
def isAlnumA (c : Char) : Bool := isDigitA c || isAlphaA c

/-- Regex class `[a-zA-Z0-9-]`. -/
def isAlnumDashA (c : Char) : Bool := isAlnumA c || c == '-'

/-- Regex class `\S` (not whitespace), restricted to ASCII whitespace. -/
def isNotSpaceA (c : Char) : Bool :=
  !(c == ' ' || c == '\t' || c == '\n' || c == '\r' ||
    c == (Char.ofNat 11) || c == (Char.ofNat 12))

/-- Regex class `[^:]`. -/
def isNotColonA (c : Char) : Bool := !(c == ':')

/-- End-of-input continuation: strict end of string. -/
def exactEnd (l : List Char) : Bool := l == []

/-- Python's `$` anchor under `re.match`: the end of the string, or the
position just before a single newline that ends the string. -/
def pyDollar (l : List Char) : Bool := l == [] || l == ['\n']

/-- Match one literal character, then continue. -/
def chrThen (c : Char) (k : List Char → Bool) : List Char → Bool
  | d :: r => d == c && k r
  | [] => false

/-- Match one character of a class, then continue. -/
def clsThen (p : Char → Bool) (k : List Char → Bool) : List Char → Bool
  | c :: r => p c && k r
  | [] => false

/-- Match exactly `n` characters of a class (regex `{n}`), then continue. -/
def clsNThen (p : Char → Bool) : Nat → (List Char → Bool) → List Char → Bool
  | 0, k, l => k l
  | n + 1, k, l =>
    match l with
    | c :: r => p c && clsNThen p n k r
    | [] => false

/-- Match one or more characters of a class (regex `+`) with full
backtracking: after each consumed character the continuation is tried. -/
def clsPlusThen (p : Char → Bool) (k : List Char → Bool) : List Char → Bool
  | c :: r => p c && (k r || clsPlusThen p k r)
  | [] => false

/-- Match zero or more characters of a class (regex `*`). -/
def clsStarThen (p : Char → Bool) (k : List Char → Bool) (l : List Char) : Bool :=
  k l || clsPlusThen p k l

/-- Match at most `n` characters of a class (regex `{0,n}`). -/
def clsUptoThen (p : Char → Bool) : Nat → (List Char → Bool) → List Char → Bool
  | 0, k, l => k l
  | n + 1, k, l =>
    k l ||
      match l with
      | c :: r => p c && clsUptoThen p n k r
      | [] => false

/-- Match a literal string, then continue. -/
def strThen (s : String) (k : List Char → Bool) (l : List Char) : Bool :=
  go s.data l
where
  go : List Char → List Char → Bool
    | [], l => k l
    | c :: cs, d :: l => d == c && go cs l
    | _ :: _, [] => false

/-- Match an optional literal character (regex `c?`), then continue. -/
def optChrThen (c : Char) (k : List Char → Bool) (l : List Char) : Bool :=
  k l || chrThen c k l

/-! ## The UUID pattern

`^[0-9a-f]{8}-[0-9a-f]{4}-[0-9a-f]{4}-[0-9a-f]{4}-[0-9a-f]{12}$`
(`Dome9APISDK._checkIsUUID`), parameterised by the final anchor. -/

/-- The 8-4-4-4-12 lowercase-hexadecimal group pattern of the UUID regex,
with the final anchor as continuation. -/
def uuidF (k : List Char → Bool) : List Char → Bool :=
  clsNThen isHexLowerA 8 (chrThen '-'
    (clsNThen isHexLowerA 4 (chrThen '-'
      (clsNThen isHexLowerA 4 (chrThen '-'
        (clsNThen isHexLowerA 4 (chrThen '-'
          (clsNThen isHexLowerA 12 k))))))))

/-- Embedding of `re.match` of the UUID pattern against a string. -/
def matchUUID (s : String) : Bool := uuidF pyDollar s.data

/-- The spec's UUID shape: canonical 8-4-4-4-12 lowercase hexadecimal with
hyphens, filling the whole string (strict end, no `$`-newline tolerance). -/
def uuidCanonical (s : String) : Bool := uuidF exactEnd s.data

/-- Embedding of `Dome9APISDK._checkIsUUID`: skip when `optional` and the
argument is absent; `TypeError` when the regex is matched against `None`;
`ValueError` when the match fails. -/
def checkIsUUID (arg : Option String) (opt : Bool) : Except PyErr Unit :=
  if opt && arg == none then .ok ()
  else
    match arg with
    | none => .error .typeError
    | some s => if matchUUID s then .ok () else .error .valueError

/-! ## The remaining validator patterns of `Dome9APISDK` -/

/-- Embedding of `re.match('^[0-9a-z]+$', arg)` from
`Dome9APISDK._checkOnlyContainsLowercaseAlphanumeric`. -/
def matchLowerAlnum (s : String) : Bool := clsPlusThen isLowerAlnumA pyDollar s.data

/-- Embedding of `Dome9APISDK._checkOnlyContainsLowercaseAlphanumeric`. -/
def checkOnlyContainsLowercaseAlphanumeric (arg : Option String) (opt : Bool) :
    Except PyErr Unit :=
  if opt && arg == none then .ok ()
  else
    match arg with
    | none => .error .typeError
    | some s => if matchLowerAlnum s then .ok () else .error .valueError

/-- Domain label of the HTTP-URL regex:
`[a-zA-Z0-9]([a-zA-Z0-9-]{0,61}[a-zA-Z0-9])?\.` followed by `k`. -/
def labelDotThen (k : List Char → Bool) : List Char → Bool :=
  clsThen isAlnumA (fun r =>
    chrThen '.' k r ||
      clsUptoThen isAlnumDashA 61 (clsThen isAlnumA (chrThen '.' k)) r)

/-- One or more domain labels (regex `(label\.)+`) followed by `k`; the fuel
bounds the number of iterations and is instantiated with the input length,
which suffices since every label consumes at least two characters. -/
def labelsThen (k : List Char → Bool) : Nat → List Char → Bool
  | 0, _ => false
  | n + 1, l => labelDotThen (fun r => k r || labelsThen k n r) l

/-- Top-level-domain alternative of the HTTP-URL regex:
`[a-zA-Z]{2,6}\.?|[a-zA-Z0-9-]{2,}\.?`. -/
def tldThen (k : List Char → Bool) (l : List Char) : Bool :=
  clsNThen isAlphaA 2 (clsUptoThen isAlphaA 4 (optChrThen '.' k)) l ||
    clsNThen isAlnumDashA 2 (clsStarThen isAlnumDashA (optChrThen '.' k)) l

/-- Group `\d{1,3}` of the HTTP-URL regex's dotted-quad alternative. -/
def digits13Then (k : List Char → Bool) : List Char → Bool :=
  clsThen isDigitNd (clsUptoThen isDigitNd 2 k)

/-- Host alternative of the HTTP-URL regex: dotted labels with a TLD, the
literal `localhost`, or `\d{1,3}\.\d{1,3}\.\d{1,3}\.\d{1,3}`. -/
def hostThen (k : List Char → Bool) (l : List Char) : Bool :=
  labelsThen (tldThen k) (l.length + 1) l ||
    strThen "localhost" k l ||
    digits13Then (chrThen '.'
      (digits13Then (chrThen '.'
        (digits13Then (chrThen '.' (digits13Then k)))))) l

/-- Optional port of the HTTP-URL regex: `(:\d+)?`. -/
def portOptThen (k : List Char → Bool) (l : List Char) : Bool :=
  k l || chrThen ':' (clsPlusThen isDigitNd k) l

/-- Tail of the HTTP-URL regex: `(/?|[/?]\S+)` followed by the `$` anchor. -/
def urlTailEnd (l : List Char) : Bool :=
  (pyDollar l || chrThen '/' pyDollar l) ||
    clsThen (fun c => c == '/' || c == '?') (clsPlusThen isNotSpaceA pyDollar) l

/-- Embedding of `re.match` of the HTTP-URL pattern
`^(http)s?://(host)(:\d+)?(/?|[/?]\S+)$` from `Dome9APISDK._checkIsHTTPURL`. -/
def matchHTTPURL (s : String) : Bool :=
  strThen "http" (optChrThen 's' (strThen "://" (hostThen (portOptThen urlTailEnd))))
    s.data

/-- Embedding of `Dome9APISDK._checkIsHTTPURL`. -/
def checkIsHTTPURL (arg : Option String) (opt : Bool) : Except PyErr Unit :=
  if opt && arg == none then .ok ()
  else
    match arg with
    | none => .error .typeError
    | some s => if matchHTTPURL s then .ok () else .error .valueError

/-- Group `[^:]*` of the ARN regex. -/
def nonColonStar (k : List Char → Bool) : List Char → Bool :=
  clsStarThen isNotColonA k

/-- Embedding of `re.match` of the ARN pattern `^arn:aws[^:]*:[^:]*:[^:]*:[^:]*:[^:]*(:[^:]*)?$`
from `Dome9APISDK._checkIsARN`. -/
def matchARN (s : String) : Bool :=
  strThen "arn:aws" (nonColonStar (chrThen ':'
    (nonColonStar (chrThen ':'
      (nonColonStar (chrThen ':'
        (nonColonStar (chrThen ':'
          (nonColonStar (fun l => pyDollar l || chrThen ':' (nonColonStar pyDollar) l))))))))))
    s.data

/-- Embedding of `Dome9APISDK._checkIsARN`. -/
def checkIsARN (arg : Option String) (opt : Bool) : Except PyErr Unit :=
  if opt && arg == none then .ok ()
  else
    match arg with
    | none => .error .typeError
    | some s => if matchARN s then .ok () else .error .valueError

/-! ## The IPv4 pattern

`^(((\d)|([1-9]\d)|(1\d{2})|(2[0-4]\d)|(25[0-5]))\.){3}((\d)|([1-9]\d)|(1\d{2})|(2[0-4]\d)|(25[0-5]))$`
from `Dome9APISDK._checkIsIP`.  Each alternative of the octet group is
embedded separately, in the order of the regex. -/

/-- Octet alternative `(\d)`: one digit, then continue. -/
def tryD (k : List Char → Bool) : List Char → Bool
  | c :: r => isDigitNd c && k r
  | [] => false

/-- Octet alternative `([1-9]\d)`. -/
def tryNZD (k : List Char → Bool) : List Char → Bool
  | c1 :: c2 :: r => isNzDigitA c1 && isDigitNd c2 && k r
  | _ => false

/-- Octet alternative `(1\d{2})`. -/
def try1DD (k : List Char → Bool) : List Char → Bool
  | c1 :: c2 :: c3 :: r => c1 == '1' && isDigitNd c2 && isDigitNd c3 && k r
  | _ => false

/-- Octet alternative `(2[0-4]\d)`. -/
def try2LD (k : List Char → Bool) : List Char → Bool
  | c1 :: c2 :: c3 :: r => c1 == '2' && inRangeA 48 52 c2 && isDigitNd c3 && k r
  | _ => false

/-- Octet alternative `(25[0-5])`. -/
def try25X (k : List Char → Bool) : List Char → Bool
  | c1 :: c2 :: c3 :: r => c1 == '2' && c2 == '5' && inRangeA 48 53 c3 && k r
  | _ => false

/-- The octet group of the IPv4 regex: the five alternatives with full
backtracking into the continuation. -/
def octetThen (k : List Char → Bool) (l : List Char) : Bool :=
  tryD k l || tryNZD k l || try1DD k l || try2LD k l || try25X k l

/-- The IPv4 group pattern `(octet\.){3}octet`, with the final anchor as
continuation. -/
def ipv4F (k : List Char → Bool) : List Char → Bool :=
  octetThen (chrThen '.'
    (octetThen (chrThen '.'
      (octetThen (chrThen '.'
        (octetThen k))))))

/-- Embedding of `re.match` of the IPv4 pattern against a string. -/
def matchIPv4 (s : String) : Bool := ipv4F pyDollar s.data

/-- Embedding of `Dome9APISDK._checkIsIP`. -/
def checkIsIP (arg : Option String) (opt : Bool) : Except PyErr Unit :=
  if opt && arg == none then .ok ()
  else
    match arg with
    | none => .error .typeError
    | some s => if matchIPv4 s then .ok () else .error .valueError

/-! ## Duration, email and UUID-or-12-digit patterns -/

/-- Optional day group of the duration regex: `((0\.)|([1-9]\d*\.))?`. -/
def dayOptThen (k : List Char → Bool) (l : List Char) : Bool :=
  k l ||
    chrThen '0' (chrThen '.' k) l ||
    clsThen isNzDigitA (clsStarThen isDigitNd (chrThen '.' k)) l

/-- Hour group of the duration regex: `((\d)|(1\d)|(2[0-4]))`. -/
def hourThen (k : List Char → Bool) (l : List Char) : Bool :=
  clsThen isDigitNd k l ||
    chrThen '1' (clsThen isDigitNd k) l ||
    chrThen '2' (clsThen (inRangeA 48 52) k) l

/-- Minute/second group of the duration regex: `((\d)|([1-5]\d))`. -/
def minSecThen (k : List Char → Bool) (l : List Char) : Bool :=
  clsThen isDigitNd k l || clsThen (inRangeA 49 53) (clsThen isDigitNd k) l

/-- Embedding of `re.match` of the duration pattern
`^((0\.)|([1-9]\d*\.))?((\d)|(1\d)|(2[0-4])):((\d)|([1-5]\d)):((\d)|([1-5]\d))$`
from `Dome9APISDK._checkIsDuration`. -/
def matchDuration (s : String) : Bool :=
  dayOptThen (hourThen (chrThen ':' (minSecThen (chrThen ':' (minSecThen pyDollar)))))
    s.data

/-- Embedding of `Dome9APISDK._checkIsDuration`. -/
def checkIsDuration (arg : Option String) (opt : Bool) : Except PyErr Unit :=
  if opt && arg == none then .ok ()
  else
    match arg with
    | none => .error .typeError
    | some s => if matchDuration s then .ok () else .error .valueError

/-- Regex class `[a-zA-Z0-9_.+-]` (email local part). -/
def isEmailLocalA (c : Char) : Bool :=
  isAlnumA c || c == '_' || c == '.' || c == '+' || c == '-'

/-- Regex class `[a-zA-Z0-9-.]` (email domain tail). -/
def isEmailTailA (c : Char) : Bool := isAlnumDashA c || c == '.'

/-- Embedding of `re.match` of the email pattern
`^[a-zA-Z0-9_.+-]+@[a-zA-Z0-9-]+\.[a-zA-Z0-9-.]+$` from
`Dome9APISDK._checkIsEmail`. -/
def matchEmail (s : String) : Bool :=
  clsPlusThen isEmailLocalA (chrThen '@'
    (clsPlusThen isAlnumDashA (chrThen '.'
      (clsPlusThen isEmailTailA pyDollar)))) s.data

/-- Embedding of `Dome9APISDK._checkIsEmail`. -/
def checkIsEmail (arg : Option String) (opt : Bool) : Except PyErr Unit :=
  if opt && arg == none then .ok ()
  else
    match arg with
    | none => .error .typeError
    | some s => if matchEmail s then .ok () else .error .valueError

/-- Embedding of `re.match` of `^\d{12}$`. -/
def matchTwelveDigits (s : String) : Bool := clsNThen isDigitNd 12 pyDollar s.data

/-- Embedding of `Dome9APISDK._checkIsUUIDOr12Digits`: the 12-digit pattern
is matched first, then the UUID pattern; both failing raises `ValueError`. -/
def checkIsUUIDOr12Digits (arg : Option String) (opt : Bool) : Except PyErr Unit :=
  if opt && arg == none then .ok ()
  else
    match arg with
    | none => .error .typeError
    | some s =>
      if !matchTwelveDigits s && !matchUUID s then .error .valueError else .ok ()

/-- Embedding of `Dome9APISDK._checkIsNotNegative`: `arg < 0` raises
`ValueError`; comparing `None` with `0` raises `TypeError`. -/
def checkIsNotNegative (arg : Option Int) (opt : Bool) : Except PyErr Unit :=
  if opt && arg == none then .ok ()
  else
    match arg with
    | none => .error .typeError
    | some n => if n < 0 then .error .valueError else .ok ()

/-- Embedding of `Dome9APISDK._checkIsPort`: `arg < 0 or arg > 65535` raises
`ValueError`; comparing `None` with `0` raises `TypeError`. -/
def checkIsPort (arg : Option Int) (opt : Bool) : Except PyErr Unit :=
  if opt && arg == none then .ok ()
  else
    match arg with
    | none => .error .typeError
    | some n => if n < 0 || n > 65535 then .error .valueError else .ok ()

/-! ## The request dispatcher

`Dome9APISDK._request` and the legacy `Client._request`.  The HTTP library
(`requests`) is external: a dispatch is parameterised by a `TransportResult`
describing what the one synchronous HTTP call did.  `α` is the type of the
value decoded by `response.json()`. -/

/-- The `_RequestMethods` enumeration (HTTP verbs). -/
inductive RequestMethod where
  | get
  | post
  | patch
  | put
  | delete
deriving DecidableEq, Repr

/-- JSON-serialisable Python values appearing in request bodies. -/
inductive PyVal where
  | null
  | str (s : String)
  | int (n : Int)
  | bool (b : Bool)
  | obj (l : List (String × PyVal))

/-- Lift an optional string into a body value (`None` serialises to null). -/
def pvOptStr : Option String → PyVal
  | none => .null
  | some s => .str s

/-- Lift an optional integer into a body value. -/
def pvOptInt : Option Int → PyVal
  | none => .null
  | some n => .int n

/-- Lift an optional boolean into a body value. -/
def pvOptBool : Option Bool → PyVal
  | none => .null
  | some b => .bool b

/-- The `Dome9APIException` of `src/dome9/exceptions.py` (the spec's
`APIError`): a message, an optional status code and optional raw content.
`code` and `content` default to `None`.  The current client's
`dome9_api_exceptions` module is not under `src/` and is modelled from the
spec's `APIError` with these same fields. -/
structure Dome9APIException where
  message : String
  code : Option Nat
  content : Option (List Nat)
deriving DecidableEq, Repr

/-- One HTTP response as seen by the dispatcher: status code, reason phrase,
raw body bytes, and the outcome that `response.json()` produces on that
body (the JSON decoder itself is the external `requests`/`json` library). -/
structure HTTPResponse (α : Type) where
  statusCode : Nat
  reason : String
  content : List Nat
  json : Except String α

/-- What the single HTTP call of a dispatch did: either the transport raised
`requests.ConnectionError` (with its string rendering), or a response came
back. -/
inductive TransportResult (α : Type) where
  | connectionError (msg : String)
  | response (r : HTTPResponse α)

/-- The state stored on the client object by `__init__`: the base origin and
the `HTTPBasicAuth(key, secret)` pair.  Identical in shape for
`Dome9APISDK` (`_origin`, `_clientAuth`) and the legacy `Client`
(`_baseURL`, `_clientAuth`). -/
structure Config where
  origin : String
  auth : String × String
deriving DecidableEq, Repr

/-- Everything `requests.<verb>(...)` receives from the dispatcher: the
resolved URL, headers, basic-auth pair, verb, JSON body and query params. -/
structure PreparedRequest where
  url : String
  headers : List (String × String)
  auth : String × String
  method : RequestMethod
  body : Option (List (String × PyVal))
  params : Option (List (String × String))

/-- Split a character list at the first occurrence of `://`, if any. -/
def splitSchemeSep : List Char → Option (List Char × List Char)
  | ':' :: '/' :: '/' :: r => some ([], r)
  | c :: r => (splitSchemeSep r).map (fun ab => (c :: ab.1, ab.2))
  | [] => none

/-- Leading RFC 3986 scheme of a URL reference
(`ALPHA (ALPHA / DIGIT / + / - / .)* :`), split off from the rest; `none`
when the reference has no scheme. -/
def splitScheme (l : List Char) : Option (List Char × List Char) :=
  match l with
  | c :: r => if isAlphaA c then go [c] r else none
  | [] => none
where
  go (acc : List Char) : List Char → Option (List Char × List Char)
    | ':' :: r => some (acc.reverse, r)
    | c :: r =>
      if isAlnumA c || c == '+' || c == '-' || c == '.' then go (c :: acc) r
      else none
    | [] => none

/-- ASCII lowercasing, for case-insensitive scheme comparison. -/
def lowerAsciiChar (c : Char) : Char :=
  if inRangeA 65 90 c then Char.ofNat (c.toNat + 32) else c

/-- Modelled from the spec: `urllib.parse.urljoin`, the standard URL-join of
RFC 3986 used by both dispatchers (`urllib.parse` is the Python standard
library, not part of this repository).  Restricted to absolute `http(s)`
bases, with no dot-segment normalisation and no query/fragment splitting.
A route carrying a scheme different from the base's replaces the base
wholesale; a same-scheme route is resolved with its scheme prefix stripped,
as CPython does for `http(s)`; a protocol-relative route keeps the base
scheme; a rooted route replaces the base's path; any other route is
resolved against the base path up to its last slash. -/
def urljoin (base url : String) : String :=
  if url.data.isEmpty then base
  else
    match splitSchemeSep base.data with
    | some (bscheme, rest) =>
      match
        (match splitScheme url.data with
         | some (uscheme, urest) =>
           if uscheme.map lowerAsciiChar = bscheme.map lowerAsciiChar then some urest
           else none
         | none => some url.data) with
      | none => url
      | some u =>
        let netloc := rest.takeWhile (fun c => !(c == '/'))
        let path := rest.dropWhile (fun c => !(c == '/'))
        match u with
        | '/' :: '/' :: _ => ⟨bscheme ++ ':' :: u⟩
        | '/' :: _ => ⟨bscheme ++ ':' :: '/' :: '/' :: (netloc ++ u)⟩
        | _ =>
          let dir :=
            if path.isEmpty then ['/']
            else (path.reverse.dropWhile (fun c => !(c == '/'))).reverse
          ⟨bscheme ++ ':' :: '/' :: '/' :: (netloc ++ (dir ++ u))⟩
    | none => url

/-- Classification of a status code by `Dome9APISDK._request`:
`response.status_code not in range(200, 299)` is the failure test, so the
success range is `200 ≤ code < 299`. -/
def statusOk (code : Nat) : Bool := 200 ≤ code && code < 299

/-- The request produced by `Dome9APISDK._request` before the HTTP call:
URL joined from the origin and the route, JSON accept/content-type headers,
and the stored basic-auth pair. -/
def sdkPrepare (self : Config) (method : RequestMethod) (route : String)
    (body : Option (List (String × PyVal)))
    (params : Option (List (String × String))) : PreparedRequest :=
  { url := urljoin self.origin route
    headers := [("Accept", "application/json"), ("Content-Type", "application/json")]
    auth := self.auth
    method := method
    body := body
    params := params }

/-- Response handling of `Dome9APISDK._request`: a connection error is
re-raised as `Dome9APIException` with the URL and the cause in the message;
a failure status raises `Dome9APIException(reason, status_code, content)`;
a success with non-empty body returns the decoded JSON or raises
`Dome9APIException(str(valueError), status_code, content)`; a success with
empty body returns `None`. -/
def sdkHandle {α : Type} (url : String) (t : TransportResult α) :
    Except Dome9APIException (Option α) :=
  match t with
  | .connectionError msg =>
    .error { message := url ++ " " ++ msg, code := none, content := none }
  | .response r =>
    if !statusOk r.statusCode then
      .error { message := r.reason, code := some r.statusCode, content := some r.content }
    else if !r.content.isEmpty then
      match r.json with
      | .ok v => .ok (some v)
      | .error m =>
        .error { message := m, code := some r.statusCode, content := some r.content }
    else
      .ok none

/-- Embedding of `Dome9APISDK._request`: the prepared request handed to the
transport, and the dispatch outcome. -/
def sdkRequest {α : Type} (self : Config) (method : RequestMethod) (route : String)
    (body : Option (List (String × PyVal)))
    (params : Option (List (String × String))) (t : TransportResult α) :
    PreparedRequest × Except Dome9APIException (Option α) :=
  let prep := sdkPrepare self method route body params
  (prep, sdkHandle prep.url t)

/-- Constant `Client._DEFAULT_FORMAT` of the legacy `src/dome9/client.py`. -/
def clientDefaultFormat : String := "application/json"

/-- Constant `Client._HTTP_OK_RANGE = range(200, 299)` of the legacy client, as a
membership test. -/
def clientHttpOkRange (code : Nat) : Bool := 200 ≤ code && code < 299

/-- Response handling of the legacy `Client._request`, embedded separately
from its own source text. -/
def clientHandle {α : Type} (url : String) (t : TransportResult α) :
    Except Dome9APIException (Option α) :=
  match t with
  | .connectionError msg =>
    .error { message := url ++ " " ++ msg, code := none, content := none }
  | .response r =>
    if !clientHttpOkRange r.statusCode then
      .error { message := r.reason, code := some r.statusCode, content := some r.content }
    else if !r.content.isEmpty then
      match r.json with
      | .ok v => .ok (some v)
      | .error m =>
        .error { message := m, code := some r.statusCode, content := some r.content }
    else
      .ok none

/-- Embedding of the legacy `Client._request`. -/
def clientRequest {α : Type} (self : Config) (method : RequestMethod) (route : String)
    (body : Option (List (String × PyVal)))
    (params : Option (List (String × String))) (t : TransportResult α) :
    PreparedRequest × Except Dome9APIException (Option α) :=
  let url := urljoin self.origin route
  ({ url := url
     headers := [("Accept", clientDefaultFormat), ("Content-Type", clientDefaultFormat)]
     auth := self.auth
     method := method
     body := body
     params := params },
   clientHandle url t)

/-! ## Construction and per-operation methods -/

/-- Embedding of `Dome9APISDK.__init__`: validate the key as a UUID, the
secret as lowercase alphanumeric and the origin as an HTTP(S) URL, then
store the origin and the basic-auth pair.  No request is dispatched. -/
def mkSDK (key secret origin : String) : Except PyErr Config := do
  checkIsUUID (some key) false
  checkOnlyContainsLowercaseAlphanumeric (some secret) false
  checkIsHTTPURL (some origin) false
  pure { origin := origin, auth := (key, secret) }

/-- Embedding of `Dome9APISDK.getAllUsers`: no validation, a GET on route
`user`.  The first component is the object state after the call; an `.ok`
result is the request handed to the transport. -/
def getAllUsers (self : Config) : Config × Except PyErr PreparedRequest :=
  (self, .ok (sdkPrepare self .get "user" none none))

/-- Embedding of `Dome9APISDK.updateCloudAccountID`: validates
`cloudAccountId` (UUID), `organizationalUnitId` (UUID, optional), `arn`
(ARN, required!) and `secret` (lowercase alphanumeric, required!), then
PATCHes `CloudAccounts/{id}` with the account fields and a nested
`CloudAccountCredentials` object carrying `arn`, `secret` and the constant
`'type': 'RoleBased'`.  The first component is the object state after the
call; an `.ok` result is the request handed to the transport. -/
def updateCloudAccountID (self : Config) (cloudAccountId : String)
    (name : Option String) (fullProtection : Option Bool)
    (allowReadOnly : Option Bool) (organizationalUnitId : Option String)
    (organizationalUnitPath : Option String) (organizationalUnitName : Option String)
    (lambdaScanner : Option Bool) (arn : Option String) (secret : Option String) :
    Config × Except PyErr PreparedRequest :=
  (self, do
    checkIsUUID (some cloudAccountId) false
    checkIsUUID organizationalUnitId true
    checkIsARN arn false
    checkOnlyContainsLowercaseAlphanumeric secret false
    pure (sdkPrepare self .patch ("CloudAccounts/" ++ cloudAccountId)
      (some
        [("name", pvOptStr name),
         ("fullProtection", pvOptBool fullProtection),
         ("allowReadOnly", pvOptBool allowReadOnly),
         ("organizationalUnitId", pvOptStr organizationalUnitId),
         ("organizationalUnitPath", pvOptStr organizationalUnitPath),
         ("organizationalUnitName", pvOptStr organizationalUnitName),
         ("lambdaScanner", pvOptBool lambdaScanner),
         ("CloudAccountCredentials", PyVal.obj
           [("arn", pvOptStr arn),
            ("secret", pvOptStr secret),
            ("type", PyVal.str "RoleBased")])])
      none))

/-- Embedding of `Dome9APISDK.acquireAwsLease`: validates, in declaration
order, `cloudAccountId` (UUID), `securityGroupId` (non-negative), `ip`
(IPv4), `portFrom` (port), `portTo` (port, optional), `duration` (duration,
optional), `accountId` (non-negative, optional) and `user` (email,
optional); `protocol`, `region` and `name` are not validated.  Then POSTs
to `accesslease/aws`.  The first component is the object state after the
call; an `.ok` result is the request handed to the transport. -/
def acquireAwsLease (self : Config) (cloudAccountId : String)
    (securityGroupId : Int) (ip : String) (portFrom : Int)
    (portTo : Option Int) (protocol : Option String) (duration : Option String)
    (region : Option String) (accountId : Option Int) (name : Option String)
    (user : Option String) : Config × Except PyErr PreparedRequest :=
  (self, do
    checkIsUUID (some cloudAccountId) false
    checkIsNotNegative (some securityGroupId) false
    checkIsIP (some ip) false
    checkIsPort (some portFrom) false
    checkIsPort portTo true
    checkIsDuration duration true
    checkIsNotNegative accountId true
    checkIsEmail user true
    pure (sdkPrepare self .post "accesslease/aws"
      (some
        [("cloudAccountId", .str cloudAccountId),
         ("securityGroupId", .int securityGroupId),
         ("ip", .str ip),
         ("portFrom", .int portFrom),
         ("portTo", pvOptInt portTo),
         ("protocol", pvOptStr protocol),
         ("length", pvOptStr duration),
         ("region", pvOptStr region),
         ("accountId", pvOptInt accountId),
         ("name", pvOptStr name),
         ("user", pvOptStr user)])
      none))

/-! ## Specification-side definitions

Formalisations of the spec's wording, used to compare the validators'
accepted sets with the languages the spec describes. -/

/-- Decimal value of a digit character. -/
def dval (c : Char) : Nat := c.toNat - 48

/-- Accumulating decimal value of a character list. -/
def octetValGo (a : Nat) : List Char → Nat
  | [] => a
  | c :: r => octetValGo (10 * a + dval c) r

/-- Decimal value denoted by a character list. -/
def octetVal (p : List Char) : Nat := octetValGo 0 p

/-- A decimal octet as the claim words it: a non-empty run of decimal digits
denoting a value in 0–255 (leading zeros permitted). -/
def octetDenotes (p : List Char) : Prop :=
  p ≠ [] ∧ (∀ c ∈ p, isDigitA c = true) ∧ octetVal p ≤ 255

instance (p : List Char) : Decidable (octetDenotes p) := by
  unfold octetDenotes; infer_instance

/-- A canonical decimal octet: a non-empty run of decimal digits with no
leading zero (`0` itself excepted) denoting a value in 0–255. -/
def octetCanon (p : List Char) : Prop :=
  p ≠ [] ∧ (∀ c ∈ p, isDigitA c = true) ∧
    (p.head? = some '0' → p = ['0']) ∧ octetVal p ≤ 255

instance (p : List Char) : Decidable (octetCanon p) := by
  unfold octetCanon; infer_instance

/-- The claim's IPv4 shape: four dot-separated decimal octets, each denoting
a value in 0–255. -/
def ipv4Denoted (s : String) : Prop :=
  ∃ p1 p2 p3 p4 : List Char,
    s.data = p1 ++ '.' :: (p2 ++ '.' :: (p3 ++ '.' :: p4)) ∧
    octetDenotes p1 ∧ octetDenotes p2 ∧ octetDenotes p3 ∧ octetDenotes p4

/-- The amended IPv4 shape: four dot-separated canonical decimal octets. -/
def ipv4Canon (s : String) : Prop :=
  ∃ p1 p2 p3 p4 : List Char,
    s.data = p1 ++ '.' :: (p2 ++ '.' :: (p3 ++ '.' :: p4)) ∧
    octetCanon p1 ∧ octetCanon p2 ∧ octetCanon p3 ∧ octetCanon p4

/-- A continuation-passing matcher decomposes: it matches `l` against a
continuation exactly when it consumes a prefix it would accept standalone
and hands the rest to the continuation.  All matchers built from
`clsNThen`, `chrThen` and `octetThen` have this property. -/
def Decomp (F : (List Char → Bool) → List Char → Bool) : Prop :=
  ∀ (k : List Char → Bool) (l : List Char),
    F k l = true ↔
      ∃ p r, l = p ++ r ∧ F exactEnd p = true ∧ k r = true

/-- Computable equality test on `Except`, used to evaluate validator
outcomes on concrete inputs. -/
instance {ε α : Type} [DecidableEq ε] [DecidableEq α] : DecidableEq (Except ε α)
  | .ok a, .ok b =>
    if h : a = b then .isTrue (by rw [h]) else .isFalse (fun he => h (Except.ok.inj he))
  | .ok _, .error _ => .isFalse Except.noConfusion
  | .error _, .ok _ => .isFalse Except.noConfusion
  | .error e, .error f =>
    if h : e = f then .isTrue (by rw [h]) else .isFalse (fun he => h (Except.error.inj he))

/-! ## Decomposition lemmas for the matchers -/

theorem char_eq_of_toNat {c d : Char} (h : c.toNat = d.toNat) : c = d :=
  Char.ext (UInt32.ext h)

theorem decomp_chrThen (c : Char) : Decomp (chrThen c) := by
  intro k l
  constructor
  · intro h
    match l with
    | [] => simp [chrThen] at h
    | d :: r =>
      simp only [chrThen, Bool.and_eq_true, beq_iff_eq] at h
      exact ⟨[d], r, rfl, by simp [chrThen, exactEnd, h.1], h.2⟩
  · rintro ⟨p, r, rfl, hp, hk⟩
    match p with
    | [] => simp [chrThen] at hp
    | [d] =>
      simp only [chrThen, exactEnd, Bool.and_eq_true, beq_iff_eq] at hp
      simp [chrThen, hp.1, hk]
    | d1 :: d2 :: t => simp [chrThen, exactEnd] at hp

theorem decomp_clsNThen (p : Char → Bool) : ∀ n, Decomp (clsNThen p n) := by
  intro n
  induction n with
  | zero =>
    intro k l
    constructor
    · intro h
      exact ⟨[], l, rfl, by simp [clsNThen, exactEnd], h⟩
    · rintro ⟨a, r, rfl, ha, hk⟩
      simp only [clsNThen, exactEnd, beq_iff_eq] at ha
      subst ha
      simpa [clsNThen] using hk
  | succ n ih =>
    intro k l
    constructor
    · intro h
      match l with
      | [] => simp [clsNThen] at h
      | c :: r =>
        simp only [clsNThen, Bool.and_eq_true] at h
        obtain ⟨a, b, rfl, ha, hk⟩ := (ih k r).mp h.2
        exact ⟨c :: a, b, rfl, by simp [clsNThen, h.1, ha], hk⟩
    · rintro ⟨a, r, rfl, ha, hk⟩
      match a with
      | [] => simp [clsNThen] at ha
      | c :: a' =>
        simp only [clsNThen, Bool.and_eq_true] at ha
        simp only [List.cons_append, clsNThen, Bool.and_eq_true]
        exact ⟨ha.1, (ih k (a' ++ r)).mpr ⟨a', r, rfl, ha.2, hk⟩⟩

theorem decomp_comp (F G : (List Char → Bool) → List Char → Bool)
    (hF : Decomp F) (hG : Decomp G) : Decomp (fun k => F (G k)) := by
  intro k l
  constructor
  · intro h
    obtain ⟨p1, r1, rfl, hp1, hr1⟩ := (hF (G k) l).mp h
    obtain ⟨p2, r2, rfl, hp2, hr2⟩ := (hG k r1).mp hr1
    refine ⟨p1 ++ p2, r2, by simp, ?_, hr2⟩
    exact (hF (G exactEnd) (p1 ++ p2)).mpr ⟨p1, p2, rfl, hp1, (hG exactEnd p2).mpr ⟨p2, [], by simp, hp2, by decide⟩⟩
  · rintro ⟨a, r, rfl, ha, hk⟩
    obtain ⟨p1, r1, rfl, hp1, hr1⟩ := (hF (G exactEnd) a).mp ha
    obtain ⟨p2, r2, rfl, hp2, hr2⟩ := (hG exactEnd r1).mp hr1
    simp only [exactEnd, beq_iff_eq] at hr2
    subst hr2
    refine (hF (G k) ((p1 ++ (p2 ++ [])) ++ r)).mpr ⟨p1, p2 ++ r, by simp, hp1, ?_⟩
    exact (hG k (p2 ++ r)).mpr ⟨p2, r, rfl, hp2, hk⟩

theorem char_beq_iff {c d : Char} : (c == d) = true ↔ c.toNat = d.toNat := by
  constructor
  · intro h
    rw [beq_iff_eq] at h
    rw [h]
  · intro h
    rw [beq_iff_eq]
    exact char_eq_of_toNat h

theorem char_eq_iff {c d : Char} : c = d ↔ c.toNat = d.toNat :=
  ⟨fun h => by rw [h], char_eq_of_toNat⟩

theorem toNat_zero_char : ('0' : Char).toNat = 48 := rfl

theorem toNat_one_char : ('1' : Char).toNat = 49 := rfl

theorem toNat_two_char : ('2' : Char).toNat = 50 := rfl

theorem toNat_five_char : ('5' : Char).toNat = 53 := rfl

theorem toNat_dot_char : ('.' : Char).toNat = 46 := rfl

theorem toNat_newline_char : ('\n' : Char).toNat = 10 := rfl

theorem octetValGo_nil (a : Nat) : octetValGo a [] = a := rfl

theorem octetValGo_cons (a : Nat) (c : Char) (r : List Char) :
    octetValGo a (c :: r) = octetValGo (10 * a + dval c) r := rfl

theorem octetVal_one (c : Char) : octetVal [c] = dval c := by
  simp only [octetVal, octetValGo_cons, octetValGo_nil]
  omega

theorem octetVal_two (c1 c2 : Char) : octetVal [c1, c2] = 10 * dval c1 + dval c2 := by
  simp only [octetVal, octetValGo_cons, octetValGo_nil]
  omega

theorem octetVal_three (c1 c2 c3 : Char) :
    octetVal [c1, c2, c3] = 100 * dval c1 + 10 * dval c2 + dval c3 := by
  simp only [octetVal, octetValGo_cons, octetValGo_nil]
  omega

theorem octetValGo_ge (p : List Char) : ∀ a : Nat, a * 10 ^ p.length ≤ octetValGo a p := by
  induction p with
  | nil => intro a; rw [octetValGo_nil]; simp
  | cons c r ih =>
    intro a
    calc a * 10 ^ (c :: r).length = (10 * a) * 10 ^ r.length := by
          simp only [List.length_cons, pow_succ]; ring
      _ ≤ (10 * a + dval c) * 10 ^ r.length := by
          exact Nat.mul_le_mul_right _ (by omega)
      _ ≤ octetValGo (10 * a + dval c) r := ih _
      _ = octetValGo a (c :: r) := rfl

theorem octetVal_ge_of_four {c : Char} {t : List Char} (hd : 1 ≤ dval c)
    (hlen : 3 ≤ t.length) : 1000 ≤ octetVal (c :: t) := by
  have h1 : (10 : Nat) ^ 3 ≤ 10 ^ t.length := Nat.pow_le_pow_right (by omega) hlen
  have h2 := octetValGo_ge t (dval c)
  have h3 : octetVal (c :: t) = octetValGo (dval c) t := by
    simp only [octetVal, octetValGo_cons]
    congr 1
    omega
  calc (1000 : Nat) = 1 * 10 ^ 3 := by norm_num
    _ ≤ dval c * 10 ^ t.length := Nat.mul_le_mul hd h1
    _ ≤ octetValGo (dval c) t := h2
    _ = octetVal (c :: t) := h3.symm

/-- A decomposable matcher run with Python's `$` anchor accepts exactly what
it accepts with a strict end anchor, up to one trailing newline. -/
theorem pyDollar_of_decomp {F : (List Char → Bool) → List Char → Bool}
    (hF : Decomp F) (l : List Char) :
    F pyDollar l = true ↔
      F exactEnd l = true ∨ ∃ p, l = p ++ ['\n'] ∧ F exactEnd p = true := by
  constructor
  · intro h
    obtain ⟨p, r, rfl, hp, hr⟩ := (hF pyDollar l).mp h
    simp only [pyDollar, Bool.or_eq_true, beq_iff_eq] at hr
    rcases hr with rfl | rfl
    · exact Or.inl (by simpa using hp)
    · exact Or.inr ⟨p, rfl, hp⟩
  · rintro (h | ⟨p, rfl, hp⟩)
    · exact (hF pyDollar l).mpr ⟨l, [], by simp, h, by decide⟩
    · exact (hF pyDollar (p ++ ['\n'])).mpr ⟨p, ['\n'], rfl, hp, by decide⟩

theorem tryD_iff (k : List Char → Bool) (l : List Char) :
    tryD k l = true ↔ ∃ c r, l = c :: r ∧ isDigitNd c = true ∧ k r = true := by
  cases l with
  | nil => simp [tryD]
  | cons c r =>
    simp only [tryD, Bool.and_eq_true]
    constructor
    · rintro ⟨h1, h2⟩
      exact ⟨c, r, rfl, h1, h2⟩
    · rintro ⟨c', r', he, h1, h2⟩
      cases he
      exact ⟨h1, h2⟩

theorem tryNZD_iff (k : List Char → Bool) (l : List Char) :
    tryNZD k l = true ↔
      ∃ c1 c2 r, l = c1 :: c2 :: r ∧ isNzDigitA c1 = true ∧ isDigitNd c2 = true ∧
        k r = true := by
  cases l with
  | nil => simp [tryNZD]
  | cons c t =>
    cases t with
    | nil => simp [tryNZD]
    | cons c2 r =>
      simp only [tryNZD, Bool.and_eq_true]
      constructor
      · rintro ⟨⟨h1, h2⟩, hk⟩
        exact ⟨c, c2, r, rfl, h1, h2, hk⟩
      · rintro ⟨c1', c2', r', he, h1, h2, hk⟩
        cases he
        exact ⟨⟨h1, h2⟩, hk⟩

theorem try1DD_iff (k : List Char → Bool) (l : List Char) :
    try1DD k l = true ↔
      ∃ c2 c3 r, l = '1' :: c2 :: c3 :: r ∧ isDigitNd c2 = true ∧
        isDigitNd c3 = true ∧ k r = true := by
  cases l with
  | nil => simp [try1DD]
  | cons c t =>
    cases t with
    | nil => simp [try1DD]
    | cons c2 t2 =>
      cases t2 with
      | nil => simp [try1DD]
      | cons c3 r =>
        simp only [try1DD, Bool.and_eq_true, beq_iff_eq]
        constructor
        · rintro ⟨⟨⟨rfl, h2⟩, h3⟩, hk⟩
          exact ⟨c2, c3, r, rfl, h2, h3, hk⟩
        · rintro ⟨c2', c3', r', he, h2, h3, hk⟩
          cases he
          exact ⟨⟨⟨rfl, h2⟩, h3⟩, hk⟩

theorem try2LD_iff (k : List Char → Bool) (l : List Char) :
    try2LD k l = true ↔
      ∃ c2 c3 r, l = '2' :: c2 :: c3 :: r ∧ inRangeA 48 52 c2 = true ∧
        isDigitNd c3 = true ∧ k r = true := by
  cases l with
  | nil => simp [try2LD]
  | cons c t =>
    cases t with
    | nil => simp [try2LD]
    | cons c2 t2 =>
      cases t2 with
      | nil => simp [try2LD]
      | cons c3 r =>
        simp only [try2LD, Bool.and_eq_true, beq_iff_eq]
        constructor
        · rintro ⟨⟨⟨rfl, h2⟩, h3⟩, hk⟩
          exact ⟨c2, c3, r, rfl, h2, h3, hk⟩
        · rintro ⟨c2', c3', r', he, h2, h3, hk⟩
          cases he
          exact ⟨⟨⟨rfl, h2⟩, h3⟩, hk⟩

theorem try25X_iff (k : List Char → Bool) (l : List Char) :
    try25X k l = true ↔
      ∃ c3 r, l = '2' :: '5' :: c3 :: r ∧ inRangeA 48 53 c3 = true ∧ k r = true := by
  cases l with
  | nil => simp [try25X]
  | cons c t =>
    cases t with
    | nil => simp [try25X]
    | cons c2 t2 =>
      cases t2 with
      | nil => simp [try25X]
      | cons c3 r =>
        simp only [try25X, Bool.and_eq_true, beq_iff_eq]
        constructor
        · rintro ⟨⟨⟨rfl, rfl⟩, h3⟩, hk⟩
          exact ⟨c3, r, rfl, h3, hk⟩
        · rintro ⟨c3', r', he, h3, hk⟩
          cases he
          exact ⟨⟨⟨rfl, rfl⟩, h3⟩, hk⟩

theorem octetThen_iff (k : List Char → Bool) (l : List Char) :
    octetThen k l = true ↔
      tryD k l = true ∨ tryNZD k l = true ∨ try1DD k l = true ∨ try2LD k l = true ∨
        try25X k l = true := by
  simp only [octetThen, Bool.or_eq_true]
  tauto

theorem isDigitA_iff {c : Char} : isDigitA c = true ↔ 48 ≤ c.toNat ∧ c.toNat ≤ 57 := by
  simp [isDigitA, inRangeA]

theorem isNzDigitA_iff {c : Char} : isNzDigitA c = true ↔ 49 ≤ c.toNat ∧ c.toNat ≤ 57 := by
  simp [isNzDigitA, inRangeA]

theorem inRangeA_iff {lo hi : Nat} {c : Char} :
    inRangeA lo hi c = true ↔ lo ≤ c.toNat ∧ c.toNat ≤ hi := by
  simp [inRangeA]

theorem isDigitNd_of_digitA {c : Char} (h : isDigitA c = true) : isDigitNd c = true := by
  simp only [isDigitA, inRangeA, decide_eq_true_eq] at h
  simp only [isDigitNd, List.any_eq_true, decide_eq_true_eq]
  exact ⟨(48, 57), by decide, h⟩

theorem isDigitA_of_Nd_ascii {c : Char} (hA : c.toNat ≤ 127)
    (h : isDigitNd c = true) : isDigitA c = true := by
  simp only [isDigitNd, List.any_eq_true, decide_eq_true_eq] at h
  obtain ⟨r, hr, h1, h2⟩ := h
  have hc := (show ∀ x ∈ ndRanges, x = ((48 : Nat), (57 : Nat)) ∨ 1632 ≤ x.1 by decide) r hr
  simp only [isDigitA, inRangeA, decide_eq_true_eq]
  rcases hc with rfl | hge
  · exact ⟨h1, h2⟩
  · omega

theorem exactEnd_iff {l : List Char} : exactEnd l = true ↔ l = [] := by
  simp [exactEnd]

theorem decomp_octetThen : Decomp octetThen := by
  intro k l
  constructor
  · intro h
    rcases (octetThen_iff k l).mp h with h | h | h | h | h
    · obtain ⟨c, r, rfl, h1, hk⟩ := (tryD_iff k l).mp h
      exact ⟨[c], r, rfl,
        (octetThen_iff exactEnd [c]).mpr (Or.inl ((tryD_iff exactEnd [c]).mpr
          ⟨c, [], rfl, h1, rfl⟩)), hk⟩
    · obtain ⟨c1, c2, r, rfl, h1, h2, hk⟩ := (tryNZD_iff k l).mp h
      exact ⟨[c1, c2], r, rfl,
        (octetThen_iff exactEnd [c1, c2]).mpr (Or.inr (Or.inl
          ((tryNZD_iff exactEnd [c1, c2]).mpr ⟨c1, c2, [], rfl, h1, h2, rfl⟩))), hk⟩
    · obtain ⟨c2, c3, r, rfl, h2, h3, hk⟩ := (try1DD_iff k l).mp h
      exact ⟨['1', c2, c3], r, rfl,
        (octetThen_iff exactEnd ['1', c2, c3]).mpr (Or.inr (Or.inr (Or.inl
          ((try1DD_iff exactEnd ['1', c2, c3]).mpr ⟨c2, c3, [], rfl, h2, h3, rfl⟩)))), hk⟩
    · obtain ⟨c2, c3, r, rfl, h2, h3, hk⟩ := (try2LD_iff k l).mp h
      exact ⟨['2', c2, c3], r, rfl,
        (octetThen_iff exactEnd ['2', c2, c3]).mpr (Or.inr (Or.inr (Or.inr (Or.inl
          ((try2LD_iff exactEnd ['2', c2, c3]).mpr ⟨c2, c3, [], rfl, h2, h3, rfl⟩))))), hk⟩
    · obtain ⟨c3, r, rfl, h3, hk⟩ := (try25X_iff k l).mp h
      exact ⟨['2', '5', c3], r, rfl,
        (octetThen_iff exactEnd ['2', '5', c3]).mpr (Or.inr (Or.inr (Or.inr (Or.inr
          ((try25X_iff exactEnd ['2', '5', c3]).mpr ⟨c3, [], rfl, h3, rfl⟩))))), hk⟩
  · rintro ⟨p, r, rfl, hp, hk⟩
    rcases (octetThen_iff exactEnd p).mp hp with h | h | h | h | h
    · obtain ⟨c, r0, rfl, h1, hend⟩ := (tryD_iff exactEnd p).mp h
      obtain rfl := exactEnd_iff.mp hend
      exact (octetThen_iff k _).mpr (Or.inl ((tryD_iff k _).mpr ⟨c, r, rfl, h1, hk⟩))
    · obtain ⟨c1, c2, r0, rfl, h1, h2, hend⟩ := (tryNZD_iff exactEnd p).mp h
      obtain rfl := exactEnd_iff.mp hend
      exact (octetThen_iff k _).mpr (Or.inr (Or.inl
        ((tryNZD_iff k _).mpr ⟨c1, c2, r, rfl, h1, h2, hk⟩)))
    · obtain ⟨c2, c3, r0, rfl, h2, h3, hend⟩ := (try1DD_iff exactEnd p).mp h
      obtain rfl := exactEnd_iff.mp hend
      exact (octetThen_iff k _).mpr (Or.inr (Or.inr (Or.inl
        ((try1DD_iff k _).mpr ⟨c2, c3, r, rfl, h2, h3, hk⟩))))
    · obtain ⟨c2, c3, r0, rfl, h2, h3, hend⟩ := (try2LD_iff exactEnd p).mp h
      obtain rfl := exactEnd_iff.mp hend
      exact (octetThen_iff k _).mpr (Or.inr (Or.inr (Or.inr (Or.inl
        ((try2LD_iff k _).mpr ⟨c2, c3, r, rfl, h2, h3, hk⟩)))))
    · obtain ⟨c3, r0, rfl, h3, hend⟩ := (try25X_iff exactEnd p).mp h
      obtain rfl := exactEnd_iff.mp hend
      exact (octetThen_iff k _).mpr (Or.inr (Or.inr (Or.inr (Or.inr
        ((try25X_iff k _).mpr ⟨c3, r, rfl, h3, hk⟩)))))

theorem octetCanon_of_exact {p : List Char} (hA : ∀ c ∈ p, c.toNat ≤ 127)
    (h : octetThen exactEnd p = true) : octetCanon p := by
  rcases (octetThen_iff exactEnd p).mp h with h | h | h | h | h
  · obtain ⟨c, r0, rfl, h1, hend⟩ := (tryD_iff exactEnd p).mp h
    obtain rfl := exactEnd_iff.mp hend
    have h1A : isDigitA c = true := isDigitA_of_Nd_ascii (hA c (by simp)) h1
    obtain ⟨hlo, hhi⟩ := isDigitA_iff.mp h1A
    refine ⟨by simp, by simp [h1A], ?_, ?_⟩
    · intro hh
      simp only [List.head?_cons, Option.some.injEq] at hh
      rw [hh]
    · rw [octetVal_one]
      simp only [dval]
      omega
  · obtain ⟨c1, c2, r0, rfl, h1, h2, hend⟩ := (tryNZD_iff exactEnd p).mp h
    obtain rfl := exactEnd_iff.mp hend
    obtain ⟨hlo1, hhi1⟩ := isNzDigitA_iff.mp h1
    have h2A : isDigitA c2 = true := isDigitA_of_Nd_ascii (hA c2 (by simp)) h2
    obtain ⟨hlo2, hhi2⟩ := isDigitA_iff.mp h2A
    refine ⟨by simp, ?_, ?_, ?_⟩
    · intro c hc
      rcases List.mem_cons.mp hc with rfl | hc
      · exact isDigitA_iff.mpr ⟨by omega, by omega⟩
      · rcases List.mem_cons.mp hc with rfl | hc
        · exact h2A
        · simp at hc
    · intro hh
      simp only [List.head?_cons, Option.some.injEq] at hh
      exfalso
      rw [char_eq_iff, toNat_zero_char] at hh
      omega
    · rw [octetVal_two]
      simp only [dval]
      omega
  · obtain ⟨c2, c3, r0, rfl, h2, h3, hend⟩ := (try1DD_iff exactEnd p).mp h
    obtain rfl := exactEnd_iff.mp hend
    have h2A : isDigitA c2 = true := isDigitA_of_Nd_ascii (hA c2 (by simp)) h2
    have h3A : isDigitA c3 = true := isDigitA_of_Nd_ascii (hA c3 (by simp)) h3
    obtain ⟨hlo2, hhi2⟩ := isDigitA_iff.mp h2A
    obtain ⟨hlo3, hhi3⟩ := isDigitA_iff.mp h3A
    refine ⟨by simp, ?_, ?_, ?_⟩
    · intro c hc
      rcases List.mem_cons.mp hc with rfl | hc
      · decide
      · rcases List.mem_cons.mp hc with rfl | hc
        · exact h2A
        · rcases List.mem_cons.mp hc with rfl | hc
          · exact h3A
          · simp at hc
    · intro hh
      simp only [List.head?_cons, Option.some.injEq] at hh
      exfalso
      rw [char_eq_iff] at hh
      simp [toNat_one_char, toNat_zero_char] at hh
    · rw [octetVal_three]
      simp only [dval, toNat_one_char]
      omega
  · obtain ⟨c2, c3, r0, rfl, h2, h3, hend⟩ := (try2LD_iff exactEnd p).mp h
    obtain rfl := exactEnd_iff.mp hend
    obtain ⟨hlo2, hhi2⟩ := inRangeA_iff.mp h2
    have h3A : isDigitA c3 = true := isDigitA_of_Nd_ascii (hA c3 (by simp)) h3
    obtain ⟨hlo3, hhi3⟩ := isDigitA_iff.mp h3A
    refine ⟨by simp, ?_, ?_, ?_⟩
    · intro c hc
      rcases List.mem_cons.mp hc with rfl | hc
      · decide
      · rcases List.mem_cons.mp hc with rfl | hc
        · exact isDigitA_iff.mpr ⟨by omega, by omega⟩
        · rcases List.mem_cons.mp hc with rfl | hc
          · exact h3A
          · simp at hc
    · intro hh
      simp only [List.head?_cons, Option.some.injEq] at hh
      exfalso
      rw [char_eq_iff] at hh
      simp [toNat_two_char, toNat_zero_char] at hh
    · rw [octetVal_three]
      simp only [dval, toNat_two_char]
      omega
  · obtain ⟨c3, r0, rfl, h3, hend⟩ := (try25X_iff exactEnd p).mp h
    obtain rfl := exactEnd_iff.mp hend
    obtain ⟨hlo3, hhi3⟩ := inRangeA_iff.mp h3
    refine ⟨by simp, ?_, ?_, ?_⟩
    · intro c hc
      rcases List.mem_cons.mp hc with rfl | hc
      · decide
      · rcases List.mem_cons.mp hc with rfl | hc
        · decide
        · rcases List.mem_cons.mp hc with rfl | hc
          · exact isDigitA_iff.mpr ⟨by omega, by omega⟩
          · simp at hc
    · intro hh
      simp only [List.head?_cons, Option.some.injEq] at hh
      exfalso
      rw [char_eq_iff] at hh
      simp [toNat_two_char, toNat_zero_char] at hh
    · rw [octetVal_three]
      simp only [dval, toNat_two_char, toNat_five_char]
      omega

theorem exact_of_octetCanon {p : List Char} (h : octetCanon p) :
    octetThen exactEnd p = true := by
  obtain ⟨hne, hdig, hz, hval⟩ := h
  rcases p with _ | ⟨c1, t⟩
  · exact absurd rfl hne
  rcases t with _ | ⟨c2, t2⟩
  · exact (octetThen_iff exactEnd [c1]).mpr (Or.inl ((tryD_iff exactEnd [c1]).mpr
      ⟨c1, [], rfl, isDigitNd_of_digitA (hdig c1 (by simp)), rfl⟩))
  have hc1 : c1 ≠ '0' := by
    intro hh
    subst hh
    have := hz (by simp)
    simp at this
  have hd1 := isDigitA_iff.mp (hdig c1 (by simp))
  have hn1 : 49 ≤ c1.toNat := by
    rcases Nat.lt_or_ge c1.toNat 49 with hlt | hge
    · exfalso
      exact hc1 (char_eq_of_toNat (by rw [toNat_zero_char]; omega))
    · exact hge
  rcases t2 with _ | ⟨c3, t3⟩
  · exact (octetThen_iff exactEnd [c1, c2]).mpr (Or.inr (Or.inl
      ((tryNZD_iff exactEnd [c1, c2]).mpr
        ⟨c1, c2, [], rfl, isNzDigitA_iff.mpr ⟨hn1, hd1.2⟩,
          isDigitNd_of_digitA (hdig c2 (by simp)), rfl⟩)))
  rcases t3 with _ | ⟨c4, t4⟩
  · -- three characters
    have hd2 := isDigitA_iff.mp (hdig c2 (by simp))
    have hd3 := isDigitA_iff.mp (hdig c3 (by simp))
    rw [octetVal_three] at hval
    simp only [dval] at hval
    have hcase : c1.toNat = 49 ∨ (c1.toNat = 50 ∧
        (c2.toNat ≤ 52 ∨ (c2.toNat = 53 ∧ c3.toNat ≤ 53))) := by omega
    rcases hcase with h49 | ⟨h50, hsub⟩
    · have : c1 = '1' := char_eq_of_toNat (by rw [h49]; rfl)
      subst this
      exact (octetThen_iff exactEnd _).mpr (Or.inr (Or.inr (Or.inl
        ((try1DD_iff exactEnd _).mpr
          ⟨c2, c3, [], rfl, isDigitNd_of_digitA (isDigitA_iff.mpr hd2),
            isDigitNd_of_digitA (isDigitA_iff.mpr hd3), rfl⟩))))
    · have : c1 = '2' := char_eq_of_toNat (by rw [h50]; rfl)
      subst this
      rcases hsub with h52 | ⟨h53, h3⟩
      · exact (octetThen_iff exactEnd _).mpr (Or.inr (Or.inr (Or.inr (Or.inl
          ((try2LD_iff exactEnd _).mpr
            ⟨c2, c3, [], rfl, inRangeA_iff.mpr ⟨hd2.1, h52⟩,
              isDigitNd_of_digitA (isDigitA_iff.mpr hd3), rfl⟩)))))
      · have : c2 = '5' := char_eq_of_toNat (by rw [h53]; rfl)
        subst this
        exact (octetThen_iff exactEnd _).mpr (Or.inr (Or.inr (Or.inr (Or.inr
          ((try25X_iff exactEnd _).mpr
            ⟨c3, [], rfl, inRangeA_iff.mpr ⟨hd3.1, h3⟩, rfl⟩)))))
  · -- at least four characters: the value is at least 1000
    exfalso
    have hge := octetVal_ge_of_four (c := c1) (t := c2 :: c3 :: c4 :: t4)
      (by simp only [dval]; omega) (by simp)
    omega

theorem octetThen_exact_iff (p : List Char) (hA : ∀ c ∈ p, c.toNat ≤ 127) :
    octetThen exactEnd p = true ↔ octetCanon p :=
  ⟨octetCanon_of_exact hA, exact_of_octetCanon⟩

theorem chrThen_iff (c : Char) (k : List Char → Bool) (l : List Char) :
    chrThen c k l = true ↔ ∃ r, l = c :: r ∧ k r = true := by
  cases l with
  | nil => simp [chrThen]
  | cons d r =>
    simp only [chrThen, Bool.and_eq_true, beq_iff_eq]
    constructor
    · rintro ⟨rfl, hk⟩
      exact ⟨r, rfl, hk⟩
    · rintro ⟨r', he, hk⟩
      cases he
      exact ⟨rfl, hk⟩

theorem ipv4F_exact_iff (l : List Char) (hA : ∀ c ∈ l, c.toNat ≤ 127) :
    ipv4F exactEnd l = true ↔
      ∃ p1 p2 p3 p4, l = p1 ++ '.' :: (p2 ++ '.' :: (p3 ++ '.' :: p4)) ∧
        octetCanon p1 ∧ octetCanon p2 ∧ octetCanon p3 ∧ octetCanon p4 := by
  constructor
  · intro h
    obtain ⟨p1, r1, rfl, hp1, hr1⟩ := (decomp_octetThen _ l).mp h
    obtain ⟨r1x, rfl, hr1x⟩ := (chrThen_iff '.' _ r1).mp hr1
    obtain ⟨p2, r2, rfl, hp2, hr2⟩ := (decomp_octetThen _ r1x).mp hr1x
    obtain ⟨r2x, rfl, hr2x⟩ := (chrThen_iff '.' _ r2).mp hr2
    obtain ⟨p3, r3, rfl, hp3, hr3⟩ := (decomp_octetThen _ r2x).mp hr2x
    obtain ⟨r3x, rfl, hr3x⟩ := (chrThen_iff '.' _ r3).mp hr3
    obtain ⟨p4, r4, rfl, hp4, hr4⟩ := (decomp_octetThen _ r3x).mp hr3x
    obtain rfl := exactEnd_iff.mp hr4
    exact ⟨p1, p2, p3, p4, by simp,
      octetCanon_of_exact (fun c hc => hA c (by simp [hc])) hp1,
      octetCanon_of_exact (fun c hc => hA c (by simp [hc])) hp2,
      octetCanon_of_exact (fun c hc => hA c (by simp [hc])) hp3,
      octetCanon_of_exact (fun c hc => hA c (by simp [hc])) hp4⟩
  · rintro ⟨p1, p2, p3, p4, rfl, h1, h2, h3, h4⟩
    refine (decomp_octetThen _ _).mpr ⟨p1, _, rfl, exact_of_octetCanon h1, ?_⟩
    refine (chrThen_iff '.' _ _).mpr ⟨_, rfl, ?_⟩
    refine (decomp_octetThen _ _).mpr ⟨p2, _, rfl, exact_of_octetCanon h2, ?_⟩
    refine (chrThen_iff '.' _ _).mpr ⟨_, rfl, ?_⟩
    refine (decomp_octetThen _ _).mpr ⟨p3, _, rfl, exact_of_octetCanon h3, ?_⟩
    refine (chrThen_iff '.' _ _).mpr ⟨_, rfl, ?_⟩
    refine (decomp_octetThen _ _).mpr ⟨p4, [], by simp, exact_of_octetCanon h4, rfl⟩

theorem pyDollar_string {F : (List Char → Bool) → List Char → Bool}
    (hF : Decomp F) (s : String) :
    F pyDollar s.data = true ↔
      F exactEnd s.data = true ∨
        ∃ t : String, s = t ++ "\n" ∧ F exactEnd t.data = true := by
  rw [pyDollar_of_decomp hF]
  constructor
  · rintro (h | ⟨p, hp, hF'⟩)
    · exact Or.inl h
    · refine Or.inr ⟨String.mk p, ?_, hF'⟩
      cases s with
      | mk d =>
        simp only [String.data] at hp
        rw [show (String.mk p ++ "\n") = String.mk (p ++ ['\n']) from rfl, hp]
  · rintro (h | ⟨t, rfl, hF'⟩)
    · exact Or.inl h
    · refine Or.inr ⟨t.data, ?_, hF'⟩
      cases t with
      | mk d => rfl

theorem decomp_uuidF : Decomp uuidF := by
  have e1 : Decomp (clsNThen isHexLowerA 12) := decomp_clsNThen isHexLowerA 12
  have e2 : Decomp (fun k => chrThen '-' (clsNThen isHexLowerA 12 k)) :=
    decomp_comp (chrThen '-') (clsNThen isHexLowerA 12) (decomp_chrThen '-') e1
  have e3 : Decomp (fun k => clsNThen isHexLowerA 4 (chrThen '-' (clsNThen isHexLowerA 12 k))) :=
    decomp_comp (clsNThen isHexLowerA 4) (fun k => chrThen '-' (clsNThen isHexLowerA 12 k))
      (decomp_clsNThen isHexLowerA 4) e2
  have e4 : Decomp (fun k => chrThen '-'
      (clsNThen isHexLowerA 4 (chrThen '-' (clsNThen isHexLowerA 12 k)))) :=
    decomp_comp (chrThen '-') _ (decomp_chrThen '-') e3
  have e5 : Decomp (fun k => clsNThen isHexLowerA 4 (chrThen '-'
      (clsNThen isHexLowerA 4 (chrThen '-' (clsNThen isHexLowerA 12 k))))) :=
    decomp_comp (clsNThen isHexLowerA 4) _ (decomp_clsNThen isHexLowerA 4) e4
  have e6 : Decomp (fun k => chrThen '-' (clsNThen isHexLowerA 4 (chrThen '-'
      (clsNThen isHexLowerA 4 (chrThen '-' (clsNThen isHexLowerA 12 k)))))) :=
    decomp_comp (chrThen '-') _ (decomp_chrThen '-') e5
  have e7 : Decomp (fun k => clsNThen isHexLowerA 4 (chrThen '-'
      (clsNThen isHexLowerA 4 (chrThen '-'
        (clsNThen isHexLowerA 4 (chrThen '-' (clsNThen isHexLowerA 12 k))))))) :=
    decomp_comp (clsNThen isHexLowerA 4) _ (decomp_clsNThen isHexLowerA 4) e6
  have e8 : Decomp (fun k => chrThen '-' (clsNThen isHexLowerA 4 (chrThen '-'
      (clsNThen isHexLowerA 4 (chrThen '-'
        (clsNThen isHexLowerA 4 (chrThen '-' (clsNThen isHexLowerA 12 k)))))))) :=
    decomp_comp (chrThen '-') _ (decomp_chrThen '-') e7
  exact decomp_comp (clsNThen isHexLowerA 8) _ (decomp_clsNThen isHexLowerA 8) e8

theorem decomp_ipv4F : Decomp ipv4F := by
  have e2 : Decomp (fun k => chrThen '.' (octetThen k)) :=
    decomp_comp (chrThen '.') octetThen (decomp_chrThen '.') decomp_octetThen
  have e3 : Decomp (fun k => octetThen (chrThen '.' (octetThen k))) :=
    decomp_comp octetThen _ decomp_octetThen e2
  have e4 : Decomp (fun k => chrThen '.' (octetThen (chrThen '.' (octetThen k)))) :=
    decomp_comp (chrThen '.') _ (decomp_chrThen '.') e3
  have e5 : Decomp (fun k => octetThen (chrThen '.' (octetThen (chrThen '.' (octetThen k))))) :=
    decomp_comp octetThen _ decomp_octetThen e4
  have e6 : Decomp (fun k => chrThen '.'
      (octetThen (chrThen '.' (octetThen (chrThen '.' (octetThen k)))))) :=
    decomp_comp (chrThen '.') _ (decomp_chrThen '.') e5
  exact decomp_comp octetThen _ decomp_octetThen e6

/-! ## Claim theorems -/

/-- C1: for every HTTP response received by the dispatcher, the status code
is classified as success exactly when it lies in 200..298 inclusive (299 is
a failure); for every status code outside that range, the dispatcher raises
`APIError` whose message is the HTTP reason phrase, whose code is the status
code, and whose content is the raw response body bytes. -/
theorem claim_C1_status_classification {α : Type} (url : String) (r : HTTPResponse α) :
    (statusOk r.statusCode = true ↔ 200 ≤ r.statusCode ∧ r.statusCode ≤ 298) ∧
    statusOk 299 = false ∧
    (statusOk r.statusCode = false →
      sdkHandle url (.response r) =
        .error ⟨r.reason, some r.statusCode, some r.content⟩) := by
  refine ⟨?_, by decide, ?_⟩
  · simp only [statusOk, Bool.and_eq_true, decide_eq_true_eq]
    omega
  · intro h
    simp [sdkHandle, h]

/-- Witness for C1: a 404 response raises `APIError` with the reason
phrase, code 404 and the body bytes. -/
theorem claim_C1_status_classification_witness :
    sdkHandle "https://api.dome9.com/v2/user"
      (TransportResult.response
        (⟨404, "Not Found", [110, 111], Except.error "boom"⟩ : HTTPResponse Nat)) =
      .error ⟨"Not Found", some 404, some [110, 111]⟩ :=
  (claim_C1_status_classification "https://api.dome9.com/v2/user"
    ⟨404, "Not Found", [110, 111], Except.error "boom"⟩).2.2 (by decide)

/-- C2: for every response with a success status code: if the body is empty
the dispatcher returns no value (and does not raise); if the body is
non-empty it is parsed as JSON and the decoded value is returned to the
caller unchanged; if parsing fails the dispatcher raises `APIError` whose
message is the parse error message, whose code is the (successful) status
code, and whose content is the raw body bytes. -/
theorem claim_C2_success_body {α : Type} (url : String) (r : HTTPResponse α)
    (hok : statusOk r.statusCode = true) :
    (r.content = [] → sdkHandle url (.response r) = .ok none) ∧
    (∀ v, r.content ≠ [] → r.json = .ok v →
      sdkHandle url (.response r) = .ok (some v)) ∧
    (∀ m, r.content ≠ [] → r.json = .error m →
      sdkHandle url (.response r) =
        .error ⟨m, some r.statusCode, some r.content⟩) := by
  refine ⟨?_, ?_, ?_⟩
  · intro h
    simp [sdkHandle, hok, h]
  · intro v h hj
    simp [sdkHandle, hok, h, hj]
  · intro m h hj
    simp [sdkHandle, hok, h, hj]

/-- Witness for C2: a 204 with empty body yields no value; a 200 with a
decodable body returns the decoded value; a 200 with body `not-json`
raises `APIError` with the decode diagnostic and code 200. -/
theorem claim_C2_success_body_witness :
    sdkHandle "u" (TransportResult.response
        (⟨204, "No Content", [], Except.error "no body"⟩ : HTTPResponse Nat)) =
      .ok none ∧
    sdkHandle "u" (TransportResult.response
        (⟨200, "OK", [55], Except.ok 7⟩ : HTTPResponse Nat)) = .ok (some 7) ∧
    sdkHandle "u" (TransportResult.response
        (⟨200, "OK", [110], Except.error "Expecting value"⟩ : HTTPResponse Nat)) =
      .error ⟨"Expecting value", some 200, some [110]⟩ :=
  ⟨(claim_C2_success_body "u" ⟨204, "No Content", [], Except.error "no body"⟩
      (by decide)).1 rfl,
   (claim_C2_success_body "u" ⟨200, "OK", [55], Except.ok 7⟩ (by decide)).2.1 7
      (by decide) rfl,
   (claim_C2_success_body "u" ⟨200, "OK", [110], Except.error "Expecting value"⟩
      (by decide)).2.2 "Expecting value" (by decide) rfl⟩

/-- C6: for every dispatch in which the network layer fails, the failure is
caught and re-raised as an `APIError` whose message carries the absolute URL
and the underlying cause (and nothing else of the transport exception: the
resulting error is fully determined by the URL and the cause's string
rendering, with no code and no content). -/
theorem claim_C6_transport_failure {α : Type} (url msg : String) :
    sdkHandle url (TransportResult.connectionError msg : TransportResult α) =
      .error ⟨url ++ " " ++ msg, none, none⟩ := rfl

/-- C8: the dispatcher resolves the absolute URL by standard URL-join of the
client's base origin with the relative route; in particular, joining base
URL `https://api.example.com/v2/` with route `CloudAccounts/123` yields
`https://api.example.com/v2/CloudAccounts/123`. -/
theorem claim_C8_urljoin {α : Type} (self : Config) (method : RequestMethod)
    (route : String) (body : Option (List (String × PyVal)))
    (params : Option (List (String × String))) (t : TransportResult α) :
    (sdkRequest self method route body params t).1.url = urljoin self.origin route ∧
    urljoin "https://api.example.com/v2/" "CloudAccounts/123" =
      "https://api.example.com/v2/CloudAccounts/123" :=
  ⟨rfl, by decide⟩

/-- C9: the legacy dispatcher (`dome9/client.py`, `Client._request`) and the
current dispatcher (`dome9_api_sdk.py`, `Dome9APISDK._request`) are
behaviourally equivalent: for every method, route, body, params and
transport outcome, both produce the same prepared request (URL, headers,
auth) and the same outcome (returned JSON value or `APIError` with the same
message, code and content). -/
theorem claim_C9_dispatcher_equivalence {α : Type} (self : Config)
    (method : RequestMethod) (route : String)
    (body : Option (List (String × PyVal)))
    (params : Option (List (String × String))) (t : TransportResult α) :
    clientRequest self method route body params t =
      sdkRequest self method route body params t := rfl

theorem checkIsUUID_some_ok_iff {s : String} :
    checkIsUUID (some s) false = .ok () ↔ matchUUID s = true := by
  by_cases h : matchUUID s <;> simp [checkIsUUID, h]

theorem checkLowerAlnum_some_ok_iff {s : String} :
    checkOnlyContainsLowercaseAlphanumeric (some s) false = .ok () ↔
      matchLowerAlnum s = true := by
  by_cases h : matchLowerAlnum s <;> simp [checkOnlyContainsLowercaseAlphanumeric, h]

theorem checkIsHTTPURL_some_ok_iff {s : String} :
    checkIsHTTPURL (some s) false = .ok () ↔ matchHTTPURL s = true := by
  by_cases h : matchHTTPURL s <;> simp [checkIsHTTPURL, h]

theorem mkSDK_eq (key secret origin : String) :
    mkSDK key secret origin =
      if matchUUID key then
        if matchLowerAlnum secret then
          if matchHTTPURL origin then .ok ⟨origin, (key, secret)⟩
          else .error .valueError
        else .error .valueError
      else .error .valueError := by
  by_cases hk : matchUUID key <;> by_cases hs : matchLowerAlnum secret <;>
    by_cases ho : matchHTTPURL origin <;>
    simp [mkSDK, checkIsUUID, checkOnlyContainsLowercaseAlphanumeric, checkIsHTTPURL,
      hk, hs, ho, bind, Except.bind, pure, Except.pure]

/-- C3: client construction succeeds exactly when the API key passes the
UUID validator, the secret passes the lowercase-alphanumeric validator and
the base URL passes the HTTP(S)-URL validator; a failing validator raises
`InvalidFormat` (`ValueError`), and construction performs no dispatch; on
success the stored configuration is exactly the given origin and basic-auth
pair, and no embedded operation ever modifies the stored configuration. -/
theorem claim_C3_construction (key secret origin : String) :
    ((∃ cfg, mkSDK key secret origin = .ok cfg) ↔
      (checkIsUUID (some key) false = .ok () ∧
       checkOnlyContainsLowercaseAlphanumeric (some secret) false = .ok () ∧
       checkIsHTTPURL (some origin) false = .ok ())) ∧
    (∀ e, mkSDK key secret origin = .error e → e = .valueError) ∧
    (∀ cfg, mkSDK key secret origin = .ok cfg → cfg = ⟨origin, (key, secret)⟩) ∧
    (∀ (self : Config) a1 a2 a3 a4 a5 a6 a7 a8 a9 a10 a11,
      (acquireAwsLease self a1 a2 a3 a4 a5 a6 a7 a8 a9 a10 a11).1 = self) ∧
    (∀ (self : Config) b1 b2 b3 b4 b5 b6 b7 b8 b9 b10,
      (updateCloudAccountID self b1 b2 b3 b4 b5 b6 b7 b8 b9 b10).1 = self) ∧
    (∀ self : Config, (getAllUsers self).1 = self) := by
  refine ⟨?_, ?_, ?_, fun _ _ _ _ _ _ _ _ _ _ _ _ => rfl,
    fun _ _ _ _ _ _ _ _ _ _ _ => rfl, fun _ => rfl⟩
  · rw [checkIsUUID_some_ok_iff, checkLowerAlnum_some_ok_iff, checkIsHTTPURL_some_ok_iff,
      mkSDK_eq]
    by_cases hk : matchUUID key <;> by_cases hs : matchLowerAlnum secret <;>
      by_cases ho : matchHTTPURL origin <;> simp [hk, hs, ho]
  · intro e he
    rw [mkSDK_eq] at he
    by_cases hk : matchUUID key <;> by_cases hs : matchLowerAlnum secret <;>
      by_cases ho : matchHTTPURL origin <;> (simp [hk, hs, ho] at he; try exact he.symm)
  · intro cfg hcfg
    rw [mkSDK_eq] at hcfg
    by_cases hk : matchUUID key <;> by_cases hs : matchLowerAlnum secret <;>
      by_cases ho : matchHTTPURL origin <;> (simp [hk, hs, ho] at hcfg; try exact hcfg.symm)

/-- Witness for C3: a well-formed key, secret and origin construct a client. -/
theorem claim_C3_construction_witness :
    ∃ cfg, mkSDK "01234567-89ab-cdef-0123-456789abcdef" "secret123" "http://localhost" =
      .ok cfg :=
  (claim_C3_construction "01234567-89ab-cdef-0123-456789abcdef" "secret123"
    "http://localhost").1.mpr ⟨by decide, by decide, by decide⟩

/-- C5: in `acquireAwsLease`, the validators run in argument-declaration
order before the request is built; the first failing check aborts the call
with `InvalidFormat` (`ValueError`), and a request is handed to the
transport only when every check passes. -/
theorem claim_C5_validation_order (self : Config) (cid : String) (sgid : Int)
    (ip : String) (pf : Int) (pt : Option Int) (proto : Option String)
    (dur : Option String) (reg : Option String) (acc : Option Int)
    (nm : Option String) (usr : Option String) :
    (checkIsUUID (some cid) false = .error .valueError →
      (acquireAwsLease self cid sgid ip pf pt proto dur reg acc nm usr).2 =
        .error .valueError) ∧
    (checkIsUUID (some cid) false = .ok () →
      checkIsNotNegative (some sgid) false = .error .valueError →
      (acquireAwsLease self cid sgid ip pf pt proto dur reg acc nm usr).2 =
        .error .valueError) ∧
    (checkIsUUID (some cid) false = .ok () →
      checkIsNotNegative (some sgid) false = .ok () →
      checkIsIP (some ip) false = .error .valueError →
      (acquireAwsLease self cid sgid ip pf pt proto dur reg acc nm usr).2 =
        .error .valueError) ∧
    (checkIsUUID (some cid) false = .ok () →
      checkIsNotNegative (some sgid) false = .ok () →
      checkIsIP (some ip) false = .ok () →
      checkIsPort (some pf) false = .error .valueError →
      (acquireAwsLease self cid sgid ip pf pt proto dur reg acc nm usr).2 =
        .error .valueError) ∧
    (checkIsUUID (some cid) false = .ok () →
      checkIsNotNegative (some sgid) false = .ok () →
      checkIsIP (some ip) false = .ok () →
      checkIsPort (some pf) false = .ok () →
      checkIsPort pt true = .error .valueError →
      (acquireAwsLease self cid sgid ip pf pt proto dur reg acc nm usr).2 =
        .error .valueError) ∧
    (checkIsUUID (some cid) false = .ok () →
      checkIsNotNegative (some sgid) false = .ok () →
      checkIsIP (some ip) false = .ok () →
      checkIsPort (some pf) false = .ok () →
      checkIsPort pt true = .ok () →
      checkIsDuration dur true = .error .valueError →
      (acquireAwsLease self cid sgid ip pf pt proto dur reg acc nm usr).2 =
        .error .valueError) ∧
    (checkIsUUID (some cid) false = .ok () →
      checkIsNotNegative (some sgid) false = .ok () →
      checkIsIP (some ip) false = .ok () →
      checkIsPort (some pf) false = .ok () →
      checkIsPort pt true = .ok () →
      checkIsDuration dur true = .ok () →
      checkIsNotNegative acc true = .error .valueError →
      (acquireAwsLease self cid sgid ip pf pt proto dur reg acc nm usr).2 =
        .error .valueError) ∧
    (checkIsUUID (some cid) false = .ok () →
      checkIsNotNegative (some sgid) false = .ok () →
      checkIsIP (some ip) false = .ok () →
      checkIsPort (some pf) false = .ok () →
      checkIsPort pt true = .ok () →
      checkIsDuration dur true = .ok () →
      checkIsNotNegative acc true = .ok () →
      checkIsEmail usr true = .error .valueError →
      (acquireAwsLease self cid sgid ip pf pt proto dur reg acc nm usr).2 =
        .error .valueError) ∧
    (∀ req, (acquireAwsLease self cid sgid ip pf pt proto dur reg acc nm usr).2 =
        .ok req →
      checkIsUUID (some cid) false = .ok () ∧
      checkIsNotNegative (some sgid) false = .ok () ∧
      checkIsIP (some ip) false = .ok () ∧
      checkIsPort (some pf) false = .ok () ∧
      checkIsPort pt true = .ok () ∧
      checkIsDuration dur true = .ok () ∧
      checkIsNotNegative acc true = .ok () ∧
      checkIsEmail usr true = .ok ()) := by
  refine ⟨?_, ?_, ?_, ?_, ?_, ?_, ?_, ?_, ?_⟩
  · intro h1
    simp [acquireAwsLease, h1, bind, Except.bind]
  · intro h1 h2
    simp [acquireAwsLease, h1, h2, bind, Except.bind]
  · intro h1 h2 h3
    simp [acquireAwsLease, h1, h2, h3, bind, Except.bind]
  · intro h1 h2 h3 h4
    simp [acquireAwsLease, h1, h2, h3, h4, bind, Except.bind]
  · intro h1 h2 h3 h4 h5
    simp [acquireAwsLease, h1, h2, h3, h4, h5, bind, Except.bind]
  · intro h1 h2 h3 h4 h5 h6
    simp [acquireAwsLease, h1, h2, h3, h4, h5, h6, bind, Except.bind]
  · intro h1 h2 h3 h4 h5 h6 h7
    simp [acquireAwsLease, h1, h2, h3, h4, h5, h6, h7, bind, Except.bind]
  · intro h1 h2 h3 h4 h5 h6 h7 h8
    simp [acquireAwsLease, h1, h2, h3, h4, h5, h6, h7, h8, bind, Except.bind]
  · intro req h
    cases hc1 : checkIsUUID (some cid) false with
    | error e => simp [acquireAwsLease, hc1, bind, Except.bind] at h
    | ok u1 =>
      cases u1
      cases hc2 : checkIsNotNegative (some sgid) false with
      | error e => simp [acquireAwsLease, hc1, hc2, bind, Except.bind] at h
      | ok u2 =>
        cases u2
        cases hc3 : checkIsIP (some ip) false with
        | error e => simp [acquireAwsLease, hc1, hc2, hc3, bind, Except.bind] at h
        | ok u3 =>
          cases u3
          cases hc4 : checkIsPort (some pf) false with
          | error e => simp [acquireAwsLease, hc1, hc2, hc3, hc4, bind, Except.bind] at h
          | ok u4 =>
            cases u4
            cases hc5 : checkIsPort pt true with
            | error e =>
              simp [acquireAwsLease, hc1, hc2, hc3, hc4, hc5, bind, Except.bind] at h
            | ok u5 =>
              cases u5
              cases hc6 : checkIsDuration dur true with
              | error e =>
                simp [acquireAwsLease, hc1, hc2, hc3, hc4, hc5, hc6, bind,
                  Except.bind] at h
              | ok u6 =>
                cases u6
                cases hc7 : checkIsNotNegative acc true with
                | error e =>
                  simp [acquireAwsLease, hc1, hc2, hc3, hc4, hc5, hc6, hc7, bind,
                    Except.bind] at h
                | ok u7 =>
                  cases u7
                  cases hc8 : checkIsEmail usr true with
                  | error e =>
                    simp [acquireAwsLease, hc1, hc2, hc3, hc4, hc5, hc6, hc7, hc8,
                      bind, Except.bind] at h
                  | ok u8 =>
                    cases u8
                    exact ⟨rfl, rfl, rfl, rfl, rfl, rfl, rfl, rfl⟩

/-- Witness for C5: a malformed IP aborts `acquireAwsLease` with
`InvalidFormat` after the earlier checks pass. -/
theorem claim_C5_validation_order_witness :
    (acquireAwsLease ⟨"http://localhost", ("k", "s")⟩
      "01234567-89ab-cdef-0123-456789abcdef" 5 "999.0.0.1" 80 none none none none
      none none none).2 = .error .valueError :=
  (claim_C5_validation_order ⟨"http://localhost", ("k", "s")⟩
    "01234567-89ab-cdef-0123-456789abcdef" 5 "999.0.0.1" 80 none none none none
    none none none).2.2.1 (by decide) (by decide) (by decide)

/-- C10: every regex-backed string validator called with `None` while the
optional flag is false raises `TypeError` (from matching the regex against
`None`) rather than `InvalidFormat`; in particular `updateCloudAccountID`
invoked with its declared defaults (`arn=None`, `secret=None`) fails with
`TypeError` before any request is dispatched. -/
theorem claim_C10_none_typeerror :
    checkIsUUID none false = .error .typeError ∧
    checkOnlyContainsLowercaseAlphanumeric none false = .error .typeError ∧
    checkIsHTTPURL none false = .error .typeError ∧
    checkIsARN none false = .error .typeError ∧
    checkIsIP none false = .error .typeError ∧
    checkIsDuration none false = .error .typeError ∧
    checkIsEmail none false = .error .typeError ∧
    checkIsUUIDOr12Digits none false = .error .typeError ∧
    (∀ (self : Config) (cid : String),
      checkIsUUID (some cid) false = .ok () →
      (updateCloudAccountID self cid none none none none none none none none
        none).2 = .error .typeError) := by
  refine ⟨rfl, rfl, rfl, rfl, rfl, rfl, rfl, rfl, ?_⟩
  intro self cid h
  have h2 : checkIsUUID none true = .ok () := rfl
  have h3 : checkIsARN none false = .error .typeError := rfl
  simp [updateCloudAccountID, h, h2, h3, bind, Except.bind]

/-- Witness for C10: `updateCloudAccountID` on a valid account id with all
optional arguments left at their `None` defaults raises `TypeError`. -/
theorem claim_C10_none_typeerror_witness :
    (updateCloudAccountID ⟨"http://localhost", ("k", "s")⟩
      "01234567-89ab-cdef-0123-456789abcdef" none none none none none none none
      none none).2 = .error .typeError :=
  claim_C10_none_typeerror.2.2.2.2.2.2.2.2 ⟨"http://localhost", ("k", "s")⟩
    "01234567-89ab-cdef-0123-456789abcdef" (by decide)

/-- Counterexample to C4 as stated: the UUID validator accepts a string that
is not of the canonical 8-4-4-4-12 shape, namely a canonical UUID followed
by one newline (Python's `$` matches just before a final newline). -/
theorem claim_C4_counterexample :
    checkIsUUID (some "00000000-0000-0000-0000-000000000000\n") false = .ok () ∧
    uuidCanonical "00000000-0000-0000-0000-000000000000\n" = false := by
  exact ⟨by decide, by decide⟩

/-- C4 (amended): the UUID validator accepts exactly the canonical
8-4-4-4-12 lowercase-hexadecimal strings, optionally followed by a single
trailing newline; every other string raises `InvalidFormat` (`ValueError`),
the only failure the validator produces on a present argument. -/
theorem claim_C4_uuid_language (s : String) :
    ((checkIsUUID (some s) false = .ok ()) ↔
      (uuidCanonical s = true ∨
        ∃ t : String, s = t ++ "\n" ∧ uuidCanonical t = true)) ∧
    (checkIsUUID (some s) false = .ok () ∨
      checkIsUUID (some s) false = .error .valueError) := by
  constructor
  · have hif : (checkIsUUID (some s) false = .ok ()) ↔ matchUUID s = true := by
      by_cases hm : matchUUID s <;> simp [checkIsUUID, hm]
    rw [hif]
    exact pyDollar_string decomp_uuidF s
  · by_cases hm : matchUUID s <;> simp [checkIsUUID, hm]

/-- Witness for C4 (amended): a canonical UUID is accepted. -/
theorem claim_C4_uuid_language_witness :
    checkIsUUID (some "01234567-89ab-cdef-0123-456789abcdef") false = .ok () :=
  (claim_C4_uuid_language "01234567-89ab-cdef-0123-456789abcdef").1.mpr
    (Or.inl (by decide))

/-- Every string of the claim's IPv4 shape is made of ASCII digits and
dots. -/
theorem ipv4Denoted_chars {s : String} (h : ipv4Denoted s) :
    ∀ c ∈ s.data, isDigitA c = true ∨ c = '.' := by
  obtain ⟨p1, p2, p3, p4, heq, h1, h2, h3, h4⟩ := h
  intro c hc
  rw [heq] at hc
  simp only [List.mem_append, List.mem_cons] at hc
  rcases hc with h | rfl | h | rfl | h | rfl | h
  · exact Or.inl (h1.2.1 c h)
  · exact Or.inr rfl
  · exact Or.inl (h2.2.1 c h)
  · exact Or.inr rfl
  · exact Or.inl (h3.2.1 c h)
  · exact Or.inr rfl
  · exact Or.inl (h4.2.1 c h)

/-- Counterexample to C7 as stated, in both directions: `00.0.0.0` consists
of four dot-separated decimal octets each denoting a value in 0–255, yet
the IPv4 validator rejects it (the regex admits no leading zeros); and the
validator accepts `٢.0.0.0` (U+0662, an Arabic-Indic digit matched by the
Unicode-wide `\d`), which is not four dot-separated decimal octets. -/
theorem claim_C7_counterexample :
    (checkIsIP (some "00.0.0.0") false = .error .valueError ∧
      ipv4Denoted "00.0.0.0") ∧
    (checkIsIP (some "٢.0.0.0") false = .ok () ∧ ¬ ipv4Denoted "٢.0.0.0") := by
  refine ⟨⟨by decide, ⟨['0', '0'], ['0'], ['0'], ['0'], by decide, by decide,
    by decide, by decide, by decide⟩⟩, by decide, ?_⟩
  intro h
  rcases ipv4Denoted_chars h '٢' (by decide) with hd | he
  · exact absurd hd (by decide)
  · exact absurd he (by decide)

/-- C7 (amended): for every ASCII string, the IPv4 validator accepts exactly
the strings of four dot-separated octets where each octet is the canonical
decimal form (no leading zeros) of a value in 0–255, optionally followed by
a single trailing newline; any other present argument raises
`InvalidFormat` (`ValueError`), the only failure the validator produces on
a present argument.  Beyond ASCII the pattern's `\d` also admits any
Unicode decimal digit, so the characterisation is stated for ASCII inputs
(see the counterexample for the non-ASCII acceptance). -/
theorem claim_C7_ipv4_language (s : String) :
    ((∀ c ∈ s.data, c.toNat ≤ 127) →
      ((checkIsIP (some s) false = .ok ()) ↔
        (ipv4Canon s ∨ ∃ t : String, s = t ++ "\n" ∧ ipv4Canon t))) ∧
    (checkIsIP (some s) false = .ok () ∨
      checkIsIP (some s) false = .error .valueError) := by
  constructor
  · intro hA
    have hif : (checkIsIP (some s) false = .ok ()) ↔ matchIPv4 s = true := by
      by_cases hm : matchIPv4 s <;> simp [checkIsIP, hm]
    rw [hif]
    have h := pyDollar_string decomp_ipv4F s
    constructor
    · intro hm
      rcases h.mp hm with he | ⟨t, rfl, he⟩
      · exact Or.inl ((ipv4F_exact_iff s.data hA).mp he)
      · refine Or.inr ⟨t, rfl, ?_⟩
        have hAt : ∀ c ∈ t.data, c.toNat ≤ 127 := fun c hc =>
          hA c (by simp [String.data_append, hc])
        exact (ipv4F_exact_iff t.data hAt).mp he
    · rintro (hc | ⟨t, rfl, hc⟩)
      · exact h.mpr (Or.inl ((ipv4F_exact_iff s.data hA).mpr hc))
      · have hAt : ∀ c ∈ t.data, c.toNat ≤ 127 := fun c hc =>
          hA c (by simp [String.data_append, hc])
        exact h.mpr (Or.inr ⟨t, rfl, (ipv4F_exact_iff t.data hAt).mpr hc⟩)
  · by_cases hm : matchIPv4 s <;> simp [checkIsIP, hm]

/-- Witness for C7 (amended): `1.2.3.4` is ASCII and accepted. -/
theorem claim_C7_ipv4_language_witness :
    checkIsIP (some "1.2.3.4") false = .ok () :=
  ((claim_C7_ipv4_language "1.2.3.4").1 (by decide)).mpr
    (Or.inl ⟨['1'], ['2'], ['3'], ['4'], by decide, by decide, by decide, by decide,
      by decide⟩)
